import Mathlib

/-!
Verification of the in-memory phone-contact registry (`src/app.py`).

The registry state is the pair of the Python module-level variables
`contacts_db` (a dict from integer id to contact record, modelled as an
insertion-ordered association list) and `contact_counter` (the next id to
assign, initialized to 1).  Contact records are Python dicts from string
keys to JSON values, modelled as association lists over `Value`.  The five
Flask handlers `create_contact`, `get_contact`, `delete_contact`,
`get_all_contacts` and `health_check` are translated as pure functions of
the state; the HTTP plumbing (CORS headers, status codes, Swagger) is out
of scope per the spec.
-/

set_option autoImplicit false

/-- A JSON value as stored in a contact record: the ids are integers and the
name/phone/email fields are (arbitrary JSON) values supplied by the client. -/
inductive Value where
  | vNat : Nat → Value
  | vStr : String → Value
deriving DecidableEq, Repr

/-- A contact record: a Python dict from string keys to values, in insertion
order.  `create_contact` always builds it with the four keys id, name,
phone, email. -/
abbrev ContactDict := List (String × Value)

/-- Python `d[key]` / `d.get(key)` on a string-keyed dict. -/
def dictGet : ContactDict → String → Option Value
  | [], _ => none
  | (k, v) :: rest, key => if k = key then some v else dictGet rest key

/-- The record `{'id': contact_id, 'name': ..., 'phone': ..., 'email': ...}`
built at src/app.py lines 93-98. -/
def mkContact (contact_id : Nat) (nm ph em : Value) : ContactDict :=
  [(("id"), Value.vNat contact_id), (("name"), nm), (("phone"), ph), (("email"), em)]

/-- The JSON body of a POST /contacts request: the three recognized keys
(each possibly absent) plus any other keys the client sent. -/
structure Payload where
  name : Option Value
  phone : Option Value
  email : Option Value
  others : List (String × Value)
deriving DecidableEq, Repr

/-- Python truthiness test `not data` on the payload dict: true exactly when
the dict has no keys at all. -/
def payloadIsEmpty (p : Payload) : Bool :=
  p.name.isNone && p.phone.isNone && p.email.isNone && p.others.isEmpty

/-- The two error kinds of the service: HTTP 400 (validation) and 404
(not found). -/
inductive ApiError where
  | validationError
  | notFoundError
deriving DecidableEq, Repr

/-- The registry state: the module-level `contacts_db` dict (keys are
contact ids, in insertion order) and the `contact_counter`. -/
structure RegistryState where
  contacts_db : List (Nat × ContactDict)
  contact_counter : Nat
deriving DecidableEq, Repr

/-- The state at process start: `contacts_db = {}`, `contact_counter = 1`
(src/app.py lines 24-25). -/
def initState : RegistryState :=
  { contacts_db := [], contact_counter := 1 }

/-- Python `db.get(k)` / `k in db` on the integer-keyed contacts dict. -/
def dbGet : List (Nat × ContactDict) → Nat → Option ContactDict
  | [], _ => none
  | (k, v) :: rest, key => if k = key then some v else dbGet rest key

/-- Python `db[k] = v`: replace the value if the key is present, else append
the new pair at the end (dict insertion order). -/
def dbInsert : List (Nat × ContactDict) → Nat → ContactDict → List (Nat × ContactDict)
  | [], key, v => [(key, v)]
  | (k, w) :: rest, key, v =>
    if k = key then (key, v) :: rest else (k, w) :: dbInsert rest key v

/-- Python `db.pop(k)`: drop every pair with the given key (a dict holds at
most one). -/
def dbRemove : List (Nat × ContactDict) → Nat → List (Nat × ContactDict)
  | [], _ => []
  | (k, v) :: rest, key =>
    if k = key then dbRemove rest key else (k, v) :: dbRemove rest key

/-- `create_contact` (src/app.py lines 82-103): reject an absent body
(`data` is None) or a falsy one (`if not data`), then require the `name`
and `phone` keys; on success allocate `contact_counter` as the id,
increment the counter, store the four-field record and return it.
`email` defaults to the empty string via `data.get('email', '')`. -/
def create_contact (s : RegistryState) (data : Option Payload) :
    Except ApiError ContactDict × RegistryState :=
  match data with
  | none => (Except.error ApiError.validationError, s)
  | some d =>
    if payloadIsEmpty d then (Except.error ApiError.validationError, s)
    else
      match d.name, d.phone with
      | some nm, some ph =>
        let contact_id := s.contact_counter
        let contact := mkContact contact_id nm ph (d.email.getD (Value.vStr ("")))
        (Except.ok contact,
         { contacts_db := dbInsert s.contacts_db contact_id contact,
           contact_counter := contact_id + 1 })
      | _, _ => (Except.error ApiError.validationError, s)

/-- `get_contact` (src/app.py lines 137-149): `contacts_db.get(contact_id)`
followed by the falsy test `if not contact` (None or an empty dict), else
return the stored record. -/
def get_contact (s : RegistryState) (contact_id : Nat) : Except ApiError ContactDict :=
  match dbGet s.contacts_db contact_id with
  | none => Except.error ApiError.notFoundError
  | some contact =>
    if contact.isEmpty then Except.error ApiError.notFoundError
    else Except.ok contact

/-- `delete_contact` (src/app.py lines 189-204): membership test
`contact_id not in contacts_db`, else `contacts_db.pop(contact_id)` and
return the removed record (the `deleted_contact` field of the response). -/
def delete_contact (s : RegistryState) (contact_id : Nat) :
    Except ApiError ContactDict × RegistryState :=
  match dbGet s.contacts_db contact_id with
  | none => (Except.error ApiError.notFoundError, s)
  | some deleted_contact =>
    (Except.ok deleted_contact,
     { s with contacts_db := dbRemove s.contacts_db contact_id })

/-- `get_all_contacts` (src/app.py lines 235-243): the pair of
`list(contacts_db.values())` and `len(contacts_db)`. -/
def get_all_contacts (s : RegistryState) : List ContactDict × Nat :=
  (s.contacts_db.map Prod.snd, s.contacts_db.length)

/-- `health_check` (src/app.py lines 246-255): always returns the status
string, `len(contacts_db)` as `contacts_count`, and the service string. -/
def health_check (s : RegistryState) : String × Nat × String :=
  (("healthy"), s.contacts_db.length, ("Phone Contacts API v1.0"))

/-- One client request against the registry. -/
inductive Op where
  | createOp : Option Payload → Op
  | getOp : Nat → Op
  | deleteOp : Nat → Op
  | listOp : Op
  | healthOp : Op
deriving DecidableEq, Repr

/-- The state after handling one request (only Create and Delete mutate). -/
def applyOp (s : RegistryState) : Op → RegistryState
  | Op.createOp d => (create_contact s d).2
  | Op.deleteOp i => (delete_contact s i).2
  | _ => s

/-- The state after handling a sequence of requests. -/
def runOps (s : RegistryState) : List Op → RegistryState
  | [] => s
  | op :: rest => runOps (applyOp s op) rest

/-- The `id` field of a returned record, when it is an integer. -/
def recordId (c : ContactDict) : Option Nat :=
  match dictGet c ("id") with
  | some (Value.vNat i) => some i
  | _ => none

/-- The ids a single request assigns: the id field of the record a
successful Create returns, nothing otherwise. -/
def opCreatedIds (s : RegistryState) : Op → List Nat
  | Op.createOp d =>
    match create_contact s d with
    | (Except.ok c, _) =>
      match recordId c with
      | some i => [i]
      | none => []
    | (Except.error _, _) => []
  | _ => []

/-- The ids assigned by the successful Creates of a request sequence, in
order. -/
def createdIds (s : RegistryState) : List Op → List Nat
  | [] => []
  | op :: rest => opCreatedIds s op ++ createdIds (applyOp s op) rest

/-- The ids a single request deletes: the id of a successful Delete. -/
def opDeletedIds (s : RegistryState) : Op → List Nat
  | Op.deleteOp i =>
    match (delete_contact s i).1 with
    | Except.ok _ => [i]
    | Except.error _ => []
  | _ => []

/-- The ids removed by the successful Deletes of a request sequence, in
order. -/
def deletedIds (s : RegistryState) : List Op → List Nat
  | [] => []
  | op :: rest => opDeletedIds s op ++ deletedIds (applyOp s op) rest

/-- The data invariant of reachable registry states: every stored key is
below the counter, the keys are pairwise distinct, and every stored record
is a four-field record whose id field is its key. -/
def WfState (s : RegistryState) : Prop :=
  (∀ p ∈ s.contacts_db, p.1 < s.contact_counter) ∧
  (s.contacts_db.map Prod.fst).Nodup ∧
  (∀ p ∈ s.contacts_db, ∃ nm ph em, p.2 = mkContact p.1 nm ph em)

/-- The first create payload of the spec scenario:
`{name: "Ivan Ivanov", phone: "+7 999 123-45-67"}`. -/
def ivanPayload : Payload :=
  { name := some (Value.vStr ("Ivan Ivanov")),
    phone := some (Value.vStr ("+7 999 123-45-67")),
    email := none,
    others := [] }

/-- The second create payload of the spec scenario:
`{name: "Anna", phone: "1", email: "a@x.com"}`. -/
def annaPayload : Payload :=
  { name := some (Value.vStr ("Anna")),
    phone := some (Value.vStr ("1")),
    email := some (Value.vStr ("a@x.com")),
    others := [] }

/-- A payload with only the phone key, used as a failing-validation input. -/
def phoneOnlyPayload : Payload :=
  { name := none,
    phone := some (Value.vStr ("1")),
    email := none,
    others := [] }

/-- First part of a demonstration trace: create Ivan, then delete id 1. -/
def demoOps1 : List Op := [Op.createOp (some ivanPayload), Op.deleteOp 1]

/-- Second part of a demonstration trace: create Anna. -/
def demoOps2 : List Op := [Op.createOp (some annaPayload)]

/-- The result of the scenario's first request, from the fresh state. -/
def scenarioStep1 : Except ApiError ContactDict × RegistryState :=
  create_contact initState (some ivanPayload)

/-- The result of the scenario's second request. -/
def scenarioStep2 : Except ApiError ContactDict × RegistryState :=
  create_contact scenarioStep1.2 (some annaPayload)

/-- The result of the scenario's third request, Delete(1). -/
def scenarioStep3 : Except ApiError ContactDict × RegistryState :=
  delete_contact scenarioStep2.2 1

/-! ### Association-list lemmas -/

lemma dbGet_some_mem {db : List (Nat × ContactDict)} {k : Nat} {c : ContactDict}
    (h : dbGet db k = some c) : (k, c) ∈ db := by
  induction db with
  | nil => simp [dbGet] at h
  | cons p rest ih =>
    obtain ⟨k1, v1⟩ := p
    by_cases hk : k1 = k
    · subst hk
      simp [dbGet] at h
      subst h
      exact List.mem_cons_self _ _
    · simp [dbGet, hk] at h
      exact List.mem_cons_of_mem _ (ih h)

lemma dbGet_eq_none {db : List (Nat × ContactDict)} {k : Nat}
    (h : ∀ p ∈ db, p.1 ≠ k) : dbGet db k = none := by
  induction db with
  | nil => rfl
  | cons p rest ih =>
    obtain ⟨k1, v1⟩ := p
    have hk : k1 ≠ k := h (k1, v1) (List.mem_cons_self _ _)
    simp only [dbGet, if_neg hk]
    exact ih fun q hq => h q (List.mem_cons_of_mem _ hq)

lemma mem_dbGet_isSome {db : List (Nat × ContactDict)} {k : Nat} {c : ContactDict}
    (hc : (k, c) ∈ db) : (dbGet db k).isSome := by
  induction db with
  | nil => simp at hc
  | cons p rest ih =>
    obtain ⟨k1, v1⟩ := p
    rcases List.mem_cons.mp hc with h1 | h1
    · injection h1 with e1 e2
      subst e1
      simp [dbGet]
    · by_cases hk : k1 = k
      · simp [dbGet, hk]
      · simp only [dbGet, if_neg hk]
        exact ih h1

lemma mem_dbInsert {db : List (Nat × ContactDict)} {k : Nat} {v : ContactDict}
    {q : Nat × ContactDict} (h : q ∈ dbInsert db k v) : q ∈ db ∨ q = (k, v) := by
  induction db with
  | nil => simp [dbInsert] at h; right; exact h
  | cons p rest ih =>
    obtain ⟨k1, v1⟩ := p
    by_cases hk : k1 = k
    · simp only [dbInsert, if_pos hk] at h
      rcases List.mem_cons.mp h with h1 | h1
      · right; exact h1
      · left; exact List.mem_cons_of_mem _ h1
    · simp only [dbInsert, if_neg hk] at h
      rcases List.mem_cons.mp h with h1 | h1
      · left; exact h1 ▸ List.mem_cons_self _ _
      · rcases ih h1 with h2 | h2
        · left; exact List.mem_cons_of_mem _ h2
        · right; exact h2

lemma dbInsert_fresh {db : List (Nat × ContactDict)} {k : Nat} (v : ContactDict)
    (h : ∀ p ∈ db, p.1 ≠ k) : dbInsert db k v = db ++ [(k, v)] := by
  induction db with
  | nil => rfl
  | cons p rest ih =>
    obtain ⟨k1, v1⟩ := p
    have hk : k1 ≠ k := h (k1, v1) (List.mem_cons_self _ _)
    simp only [dbInsert, if_neg hk, List.cons_append, List.cons.injEq, true_and]
    exact ih fun q hq => h q (List.mem_cons_of_mem _ hq)

lemma dbGet_dbInsert_self {db : List (Nat × ContactDict)} {k : Nat} {v : ContactDict} :
    dbGet (dbInsert db k v) k = some v := by
  induction db with
  | nil => simp [dbInsert, dbGet]
  | cons p rest ih =>
    obtain ⟨k1, v1⟩ := p
    by_cases hk : k1 = k
    · simp [dbInsert, dbGet, hk]
    · simp [dbInsert, dbGet, hk, ih]

lemma mem_dbRemove {db : List (Nat × ContactDict)} {k : Nat}
    {q : Nat × ContactDict} (h : q ∈ dbRemove db k) : q ∈ db := by
  induction db with
  | nil => simp [dbRemove] at h
  | cons p rest ih =>
    obtain ⟨k1, v1⟩ := p
    by_cases hk : k1 = k
    · simp only [dbRemove, if_pos hk] at h
      exact List.mem_cons_of_mem _ (ih h)
    · simp only [dbRemove, if_neg hk] at h
      rcases List.mem_cons.mp h with h1 | h1
      · exact h1 ▸ List.mem_cons_self _ _
      · exact List.mem_cons_of_mem _ (ih h1)

lemma dbRemove_sublist (db : List (Nat × ContactDict)) (k : Nat) :
    List.Sublist (dbRemove db k) db := by
  induction db with
  | nil => exact List.Sublist.refl _
  | cons p rest ih =>
    obtain ⟨k1, v1⟩ := p
    by_cases hk : k1 = k
    · simp only [dbRemove, if_pos hk]
      exact List.Sublist.cons _ ih
    · simp only [dbRemove, if_neg hk]
      exact List.Sublist.cons₂ _ ih

lemma dbGet_dbRemove_self {db : List (Nat × ContactDict)} {k : Nat} :
    dbGet (dbRemove db k) k = none := by
  induction db with
  | nil => rfl
  | cons p rest ih =>
    obtain ⟨k1, v1⟩ := p
    by_cases hk : k1 = k
    · simp only [dbRemove, if_pos hk]; exact ih
    · simp only [dbRemove, if_neg hk, dbGet, ih, if_neg hk]

lemma dbGet_dbRemove_ne {db : List (Nat × ContactDict)} {k j : Nat} (h : j ≠ k) :
    dbGet (dbRemove db k) j = dbGet db j := by
  induction db with
  | nil => rfl
  | cons p rest ih =>
    obtain ⟨k1, v1⟩ := p
    by_cases hk : k1 = k
    · subst hk
      have hne : k1 ≠ j := fun e => h e.symm
      show dbGet (if k1 = k1 then dbRemove rest k1 else (k1, v1) :: dbRemove rest k1) j = _
      rw [if_pos rfl, ih]
      simp [dbGet, if_neg hne]
    · simp only [dbRemove, if_neg hk, dbGet]
      by_cases hj : k1 = j
      · simp [hj]
      · simp [hj, ih]

lemma dbRemove_of_absent {db : List (Nat × ContactDict)} {k : Nat}
    (h : ∀ p ∈ db, p.1 ≠ k) : dbRemove db k = db := by
  induction db with
  | nil => rfl
  | cons p rest ih =>
    obtain ⟨k1, v1⟩ := p
    have hk : k1 ≠ k := h (k1, v1) (List.mem_cons_self _ _)
    simp only [dbRemove, if_neg hk, List.cons.injEq, true_and]
    exact ih fun q hq => h q (List.mem_cons_of_mem _ hq)

lemma dbRemove_length {db : List (Nat × ContactDict)} {k : Nat} {c : ContactDict}
    (hnd : (db.map Prod.fst).Nodup) (h : dbGet db k = some c) :
    (dbRemove db k).length + 1 = db.length := by
  induction db with
  | nil => simp [dbGet] at h
  | cons p rest ih =>
    obtain ⟨k1, v1⟩ := p
    simp only [List.map_cons, List.nodup_cons] at hnd
    by_cases hk : k1 = k
    · subst hk
      have habs : ∀ q ∈ rest, q.1 ≠ k1 := by
        intro q hq he
        exact hnd.1 (he ▸ List.mem_map_of_mem Prod.fst hq)
      show (if k1 = k1 then dbRemove rest k1 else (k1, v1) :: dbRemove rest k1).length + 1 = _
      rw [if_pos rfl, dbRemove_of_absent habs, List.length_cons]
    · simp only [dbGet, if_neg hk] at h
      simp only [dbRemove, if_neg hk, List.length_cons]
      exact congrArg Nat.succ (ih hnd.2 h)

/-! ### Shape of a single Create / Delete -/

lemma payloadIsEmpty_false_of_name {p : Payload} {nm : Value} (h : p.name = some nm) :
    payloadIsEmpty p = false := by
  simp [payloadIsEmpty, h]

lemma create_contact_ok {s : RegistryState} {p : Payload} {nm ph : Value}
    (hn : p.name = some nm) (hp : p.phone = some ph) :
    create_contact s (some p) =
      (Except.ok (mkContact s.contact_counter nm ph (p.email.getD (Value.vStr ("")))),
       { contacts_db := dbInsert s.contacts_db s.contact_counter
           (mkContact s.contact_counter nm ph (p.email.getD (Value.vStr ("")))),
         contact_counter := s.contact_counter + 1 }) := by
  simp [create_contact, payloadIsEmpty_false_of_name hn, hn, hp]

lemma create_contact_fail_name {s : RegistryState} {p : Payload}
    (hn : p.name = none) :
    create_contact s (some p) = (Except.error ApiError.validationError, s) := by
  cases hpe : payloadIsEmpty p <;> simp [create_contact, hpe, hn]

lemma create_contact_fail_phone {s : RegistryState} {p : Payload}
    (hp : p.phone = none) :
    create_contact s (some p) = (Except.error ApiError.validationError, s) := by
  cases hpe : payloadIsEmpty p
  · cases hn : p.name <;> simp [create_contact, hpe, hn, hp]
  · simp [create_contact, hpe]

lemma create_contact_shape (s : RegistryState) (d : Option Payload) :
    create_contact s d = (Except.error ApiError.validationError, s) ∨
    ∃ nm ph em, create_contact s d =
      (Except.ok (mkContact s.contact_counter nm ph em),
       { contacts_db := dbInsert s.contacts_db s.contact_counter
           (mkContact s.contact_counter nm ph em),
         contact_counter := s.contact_counter + 1 }) := by
  match d with
  | none => exact Or.inl rfl
  | some p =>
    cases hn : p.name with
    | none => exact Or.inl (create_contact_fail_name hn)
    | some nm =>
      cases hp : p.phone with
      | none => exact Or.inl (create_contact_fail_phone hp)
      | some ph =>
        exact Or.inr ⟨nm, ph, p.email.getD (Value.vStr ("")), create_contact_ok hn hp⟩

lemma delete_contact_shape (s : RegistryState) (i : Nat) :
    (dbGet s.contacts_db i = none ∧
       delete_contact s i = (Except.error ApiError.notFoundError, s)) ∨
    ∃ c, dbGet s.contacts_db i = some c ∧
      delete_contact s i =
        (Except.ok c, { s with contacts_db := dbRemove s.contacts_db i }) := by
  cases hget : dbGet s.contacts_db i with
  | none => exact Or.inl ⟨rfl, by simp [delete_contact, hget]⟩
  | some c => exact Or.inr ⟨c, rfl, by simp [delete_contact, hget]⟩

lemma recordId_mkContact (contact_id : Nat) (nm ph em : Value) :
    recordId (mkContact contact_id nm ph em) = some contact_id := rfl

/-! ### Per-operation characterization -/

lemma applyOp_createOp (s : RegistryState) (d : Option Payload) :
    applyOp s (Op.createOp d) = (create_contact s d).2 := rfl

lemma opCreated_spec (s : RegistryState) (op : Op) :
    (opCreatedIds s op = [] ∧
     (applyOp s op).contact_counter = s.contact_counter) ∨
    (opCreatedIds s op = [s.contact_counter] ∧
     (applyOp s op).contact_counter = s.contact_counter + 1 ∧
     ∃ c, (applyOp s op).contacts_db = dbInsert s.contacts_db s.contact_counter c) := by
  cases op with
  | createOp d =>
    rcases create_contact_shape s d with h | ⟨nm, ph, em, h⟩
    · left
      constructor
      · simp [opCreatedIds, h]
      · simp [applyOp, h]
    · right
      refine ⟨?_, ?_, mkContact s.contact_counter nm ph em, ?_⟩
      · simp [opCreatedIds, h, recordId_mkContact]
      · simp [applyOp, h]
      · simp [applyOp, h]
  | getOp i => exact Or.inl ⟨rfl, rfl⟩
  | deleteOp i =>
    rcases delete_contact_shape s i with ⟨hget, h⟩ | ⟨c, hget, h⟩
    · exact Or.inl ⟨rfl, by simp [applyOp, h]⟩
    · exact Or.inl ⟨rfl, by simp [applyOp, h]⟩
  | listOp => exact Or.inl ⟨rfl, rfl⟩
  | healthOp => exact Or.inl ⟨rfl, rfl⟩

/-! ### State invariants -/

lemma applyOp_counter_le (s : RegistryState) (op : Op) :
    s.contact_counter ≤ (applyOp s op).contact_counter := by
  rcases opCreated_spec s op with ⟨_, h⟩ | ⟨_, h, _⟩
  · exact h.ge
  · exact h ▸ Nat.le_succ _

lemma runOps_counter_le (ops : List Op) :
    ∀ s : RegistryState, s.contact_counter ≤ (runOps s ops).contact_counter := by
  induction ops with
  | nil => exact fun s => Nat.le_refl _
  | cons op rest ih =>
    exact fun s => Nat.le_trans (applyOp_counter_le s op) (ih (applyOp s op))

lemma wfState_init : WfState initState := by
  refine ⟨?_, ?_, ?_⟩ <;> simp [initState]

lemma keys_dbInsert_fresh {db : List (Nat × ContactDict)} {k : Nat} (v : ContactDict)
    (h : ∀ p ∈ db, p.1 ≠ k) :
    (dbInsert db k v).map Prod.fst = db.map Prod.fst ++ [k] := by
  rw [dbInsert_fresh v h, List.map_append]
  rfl

lemma wfState_applyOp {s : RegistryState} (op : Op) (hs : WfState s) :
    WfState (applyOp s op) := by
  obtain ⟨hlt, hnd, hrec⟩ := hs
  cases op with
  | createOp d =>
    rcases create_contact_shape s d with h | ⟨nm, ph, em, h⟩
    · simpa [applyOp, h] using ⟨hlt, hnd, hrec⟩
    · have hfresh : ∀ p ∈ s.contacts_db, p.1 ≠ s.contact_counter :=
        fun p hp he => Nat.lt_irrefl _ (he ▸ hlt p hp)
      have hins := @dbInsert_fresh s.contacts_db s.contact_counter
        (mkContact s.contact_counter nm ph em) hfresh
      refine ⟨?_, ?_, ?_⟩
      · intro p hp
        simp only [applyOp, h] at hp ⊢
        rw [hins] at hp
        rcases List.mem_append.mp hp with h1 | h1
        · exact Nat.lt_succ_of_lt (hlt p h1)
        · simp at h1
          simp [h1]
      · simp only [applyOp, h]
        rw [keys_dbInsert_fresh _ hfresh]
        rw [List.nodup_append]
        refine ⟨hnd, List.nodup_singleton _, ?_⟩
        intro a ha hb
        simp at hb
        obtain ⟨p, hp, he⟩ := List.mem_map.mp ha
        exact hfresh p hp (hb ▸ he)
      · intro p hp
        simp only [applyOp, h] at hp
        rw [hins] at hp
        rcases List.mem_append.mp hp with h1 | h1
        · exact hrec p h1
        · simp at h1
          exact ⟨nm, ph, em, by simp [h1]⟩
  | getOp i => exact ⟨hlt, hnd, hrec⟩
  | deleteOp i =>
    rcases delete_contact_shape s i with ⟨hget, h⟩ | ⟨c, hget, h⟩
    · simpa [applyOp, h] using ⟨hlt, hnd, hrec⟩
    · refine ⟨?_, ?_, ?_⟩
      · intro p hp
        simp only [applyOp, h] at hp ⊢
        exact hlt p (mem_dbRemove hp)
      · simp only [applyOp, h]
        exact hnd.sublist ((dbRemove_sublist s.contacts_db i).map Prod.fst)
      · intro p hp
        simp only [applyOp, h] at hp
        exact hrec p (mem_dbRemove hp)
  | listOp => exact ⟨hlt, hnd, hrec⟩
  | healthOp => exact ⟨hlt, hnd, hrec⟩

lemma wfState_runOps (ops : List Op) :
    ∀ s : RegistryState, WfState s → WfState (runOps s ops) := by
  induction ops with
  | nil => exact fun s hs => hs
  | cons op rest ih => exact fun s hs => ih (applyOp s op) (wfState_applyOp op hs)

lemma wfState_reachable (ops : List Op) : WfState (runOps initState ops) :=
  wfState_runOps ops initState wfState_init

/-! ### Id assignment along a trace -/

lemma range1_cons (a n : Nat) : List.range' a (n + 1) = a :: List.range' (a + 1) n := rfl

lemma createdIds_eq_range (ops : List Op) :
    ∀ s : RegistryState,
      createdIds s ops = List.range' s.contact_counter (createdIds s ops).length := by
  induction ops with
  | nil => intro s; rfl
  | cons op rest ih =>
    intro s
    show opCreatedIds s op ++ createdIds (applyOp s op) rest =
      List.range' s.contact_counter (opCreatedIds s op ++ createdIds (applyOp s op) rest).length
    rcases opCreated_spec s op with ⟨h1, h2⟩ | ⟨h1, h2, _⟩
    · rw [h1, List.nil_append, ih (applyOp s op), h2, List.length_range']
    · rw [h1]
      have hr := ih (applyOp s op)
      rw [hr, h2]
      rw [List.singleton_append, List.length_cons, range1_cons]
      rw [List.length_range']

lemma mem_createdIds_ge {ops : List Op} {s : RegistryState} {i : Nat}
    (h : i ∈ createdIds s ops) : s.contact_counter ≤ i := by
  have := createdIds_eq_range ops s
  rw [this] at h
  exact (List.mem_range'_1.mp h).1

lemma runOps_append (ops1 ops2 : List Op) :
    ∀ s : RegistryState, runOps s (ops1 ++ ops2) = runOps (runOps s ops1) ops2 := by
  induction ops1 with
  | nil => intro s; rfl
  | cons op rest ih =>
    intro s
    show runOps (applyOp s op) (rest ++ ops2) = _
    exact ih (applyOp s op)

lemma opDeleted_spec (s : RegistryState) (op : Op) {i : Nat}
    (h : i ∈ opDeletedIds s op) : ∃ c, (i, c) ∈ s.contacts_db := by
  cases op with
  | deleteOp j =>
    rcases delete_contact_shape s j with ⟨hget, hd⟩ | ⟨c, hget, hd⟩
    · simp [opDeletedIds, hd] at h
    · simp only [opDeletedIds, hd, List.mem_singleton] at h
      exact ⟨c, h ▸ dbGet_some_mem hget⟩
  | createOp d => simp [opDeletedIds] at h
  | getOp j => simp [opDeletedIds] at h
  | listOp => simp [opDeletedIds] at h
  | healthOp => simp [opDeletedIds] at h

lemma mem_deletedIds_lt (ops : List Op) :
    ∀ s : RegistryState, WfState s → ∀ i : Nat, i ∈ deletedIds s ops →
      i < (runOps s ops).contact_counter := by
  induction ops with
  | nil => intro s _ i h; simp [deletedIds] at h
  | cons op rest ih =>
    intro s hs i h
    rcases List.mem_append.mp h with h1 | h1
    · obtain ⟨c, hc⟩ := opDeleted_spec s op h1
      have hlt : i < s.contact_counter := hs.1 (i, c) hc
      have hle : s.contact_counter ≤ (runOps (applyOp s op) rest).contact_counter :=
        Nat.le_trans (applyOp_counter_le s op) (runOps_counter_le rest (applyOp s op))
      exact Nat.lt_of_lt_of_le hlt hle
    · exact ih (applyOp s op) (wfState_applyOp op hs) i h1

lemma keys_applyOp (s : RegistryState) (op : Op) {k : Nat}
    (h : k ∈ ((applyOp s op).contacts_db.map Prod.fst)) :
    k ∈ s.contacts_db.map Prod.fst ∨ k ∈ opCreatedIds s op := by
  cases op with
  | createOp d =>
    rcases create_contact_shape s d with hc | ⟨nm, ph, em, hc⟩
    · left
      simpa [applyOp, hc] using h
    · simp only [applyOp, hc] at h
      obtain ⟨p, hp, he⟩ := List.mem_map.mp h
      rcases mem_dbInsert hp with h1 | h1
      · left
        exact he ▸ List.mem_map_of_mem _ h1
      · right
        have hk : k = s.contact_counter := by rw [← he, h1]
        simp [opCreatedIds, hc, recordId_mkContact, hk]
  | deleteOp i =>
    rcases delete_contact_shape s i with ⟨hg, hc⟩ | ⟨c, hg, hc⟩
    · left
      simpa [applyOp, hc] using h
    · left
      simp only [applyOp, hc] at h
      obtain ⟨p, hp, he⟩ := List.mem_map.mp h
      exact he ▸ List.mem_map_of_mem _ (mem_dbRemove hp)
  | getOp i => exact Or.inl h
  | listOp => exact Or.inl h
  | healthOp => exact Or.inl h

lemma stored_key_createdIds (ops : List Op) :
    ∀ s : RegistryState, ∀ k : Nat,
      k ∈ ((runOps s ops).contacts_db.map Prod.fst) →
      k ∈ s.contacts_db.map Prod.fst ∨ k ∈ createdIds s ops := by
  induction ops with
  | nil => exact fun s k h => Or.inl h
  | cons op rest ih =>
    intro s k h
    rcases ih (applyOp s op) k h with h1 | h1
    · rcases keys_applyOp s op h1 with h2 | h2
      · exact Or.inl h2
      · exact Or.inr (List.mem_append.mpr (Or.inl h2))
    · exact Or.inr (List.mem_append.mpr (Or.inr h1))

/-! ### The claims -/

/-- C1: for every valid create payload (one containing both the name and
the phone key), Create followed by Get with the id Create returned yields
exactly the record Create returned, with the same id, name, phone and
email fields. -/
theorem create_then_get_roundtrip (s : RegistryState) (p : Payload) (nm ph : Value)
    (hn : p.name = some nm) (hp : p.phone = some ph) :
    ∃ c s2, create_contact s (some p) = (Except.ok c, s2) ∧
      dictGet c ("id") = some (Value.vNat s.contact_counter) ∧
      get_contact s2 s.contact_counter = Except.ok c := by
  refine ⟨_, _, create_contact_ok hn hp, rfl, ?_⟩
  simp [get_contact, dbGet_dbInsert_self, mkContact]

/-- Witness for C1 at the fresh state and the scenario's first payload. -/
theorem create_then_get_roundtrip_witness :
    ivanPayload.name = some (Value.vStr ("Ivan Ivanov")) ∧
    ivanPayload.phone = some (Value.vStr ("+7 999 123-45-67")) ∧
    ∃ c s2, create_contact initState (some ivanPayload) = (Except.ok c, s2) ∧
      dictGet c ("id") = some (Value.vNat initState.contact_counter) ∧
      get_contact s2 initState.contact_counter = Except.ok c :=
  ⟨rfl, rfl, create_then_get_roundtrip initState ivanPayload _ _ rfl rfl⟩

/-- C2: from the fresh registry, the successful Creates of any request
sequence are assigned the ids 1, 2, ..., n in order (hence unique,
strictly increasing, starting at 1), and an id deleted during a prefix of
the sequence is never assigned by a Create of the remaining suffix. -/
theorem create_id_assignment (ops : List Op) :
    createdIds initState ops = List.range' 1 (createdIds initState ops).length ∧
    ∀ ops1 ops2 : List Op, ∀ i : Nat, ops = ops1 ++ ops2 →
      i ∈ deletedIds initState ops1 →
      i ∉ createdIds (runOps initState ops1) ops2 := by
  constructor
  · exact createdIds_eq_range ops initState
  · intro ops1 ops2 i hsplit hdel hcre
    have h1 : i < (runOps initState ops1).contact_counter :=
      mem_deletedIds_lt ops1 initState wfState_init i hdel
    have h2 : (runOps initState ops1).contact_counter ≤ i := mem_createdIds_ge hcre
    exact Nat.lt_irrefl i (Nat.lt_of_lt_of_le h1 h2)

/-- Witness for C2: in the trace create-Ivan, delete 1, create-Anna, the
deleted id 1 is not assigned by the later Create. -/
theorem create_id_assignment_witness :
    createdIds initState (demoOps1 ++ demoOps2) =
      List.range' 1 (createdIds initState (demoOps1 ++ demoOps2)).length ∧
    1 ∈ deletedIds initState demoOps1 ∧
    1 ∉ createdIds (runOps initState demoOps1) demoOps2 :=
  ⟨(create_id_assignment (demoOps1 ++ demoOps2)).1,
   by decide,
   (create_id_assignment (demoOps1 ++ demoOps2)).2 demoOps1 demoOps2 1 rfl (by decide)⟩

/-- C3: Create fails with ValidationError exactly when the payload is
absent, empty, or lacks the name key or the phone key; payloads whose
required keys are present with empty-string values are accepted, and every
failure leaves the counter and the stored contacts unchanged. -/
theorem create_validation_spec (s : RegistryState) (d : Option Payload) :
    ((create_contact s d).1 = Except.error ApiError.validationError ↔
      d = none ∨ ∃ p, d = some p ∧
        (payloadIsEmpty p = true ∨ p.name = none ∨ p.phone = none)) ∧
    ∀ e : ApiError, (create_contact s d).1 = Except.error e →
      (create_contact s d).2 = s := by
  match d with
  | none => exact ⟨⟨fun _ => Or.inl rfl, fun _ => rfl⟩, fun e _ => rfl⟩
  | some p =>
    cases hn : p.name with
    | none =>
      have hc := @create_contact_fail_name s p hn
      refine ⟨⟨fun _ => Or.inr ⟨p, rfl, Or.inr (Or.inl hn)⟩, fun _ => ?_⟩, fun e _ => ?_⟩
      · rw [hc]
      · rw [hc]
    | some nm =>
      cases hp : p.phone with
      | none =>
        have hc := @create_contact_fail_phone s p hp
        refine ⟨⟨fun _ => Or.inr ⟨p, rfl, Or.inr (Or.inr hp)⟩, fun _ => ?_⟩, fun e _ => ?_⟩
        · rw [hc]
        · rw [hc]
      | some ph =>
        have hc := @create_contact_ok s p nm ph hn hp
        constructor
        · constructor
          · intro habs
            rw [hc] at habs
            exact absurd habs (by simp)
          · intro habs
            rcases habs with h1 | ⟨q, hq, h2⟩
            · exact absurd h1 (by simp)
            · injection hq with hq1
              subst hq1
              rcases h2 with h2 | h2 | h2
              · rw [payloadIsEmpty_false_of_name hn] at h2
                exact absurd h2 (by simp)
              · rw [hn] at h2
                exact absurd h2 (by simp)
              · rw [hp] at h2
                exact absurd h2 (by simp)
        · intro e he
          rw [hc] at he
          exact absurd he (by simp)

/-- Witness for C3 at a payload missing the name key: Create fails and the
fresh state is unchanged. -/
theorem create_validation_spec_witness :
    ((create_contact initState (some phoneOnlyPayload)).1 =
        Except.error ApiError.validationError ↔
      some phoneOnlyPayload = none ∨ ∃ p, some phoneOnlyPayload = some p ∧
        (payloadIsEmpty p = true ∨ p.name = none ∨ p.phone = none)) ∧
    (create_contact initState (some phoneOnlyPayload)).2 = initState :=
  ⟨(create_validation_spec initState (some phoneOnlyPayload)).1,
   (create_validation_spec initState (some phoneOnlyPayload)).2
     ApiError.validationError (by rfl)⟩

/-- C4: on any reachable state, Delete on a stored id returns the removed
record, leaves the counter and every other stored contact unchanged, makes
a subsequent Get on that id fail with NotFoundError, and decreases List's
count by exactly one; Delete on an id that is not stored fails with
NotFoundError and leaves the whole state unchanged. -/
theorem delete_contact_spec (ops : List Op) (i : Nat) :
    (∀ c, dbGet (runOps initState ops).contacts_db i = some c →
      (delete_contact (runOps initState ops) i).1 = Except.ok c ∧
      (delete_contact (runOps initState ops) i).2.contact_counter =
        (runOps initState ops).contact_counter ∧
      get_contact (delete_contact (runOps initState ops) i).2 i =
        Except.error ApiError.notFoundError ∧
      (∀ j, j ≠ i →
        dbGet (delete_contact (runOps initState ops) i).2.contacts_db j =
          dbGet (runOps initState ops).contacts_db j) ∧
      (get_all_contacts (delete_contact (runOps initState ops) i).2).2 + 1 =
        (get_all_contacts (runOps initState ops)).2) ∧
    (dbGet (runOps initState ops).contacts_db i = none →
      delete_contact (runOps initState ops) i =
        (Except.error ApiError.notFoundError, runOps initState ops)) := by
  have hwf := wfState_reachable ops
  set s := runOps initState ops with hs
  constructor
  · intro c hget
    have hd : delete_contact s i =
        (Except.ok c, { s with contacts_db := dbRemove s.contacts_db i }) := by
      simp [delete_contact, hget]
    refine ⟨by rw [hd], by rw [hd], ?_, ?_, ?_⟩
    · rw [hd]
      simp [get_contact, dbGet_dbRemove_self]
    · intro j hj
      rw [hd]
      exact dbGet_dbRemove_ne hj
    · rw [hd]
      simp only [get_all_contacts]
      exact dbRemove_length hwf.2.1 hget
  · intro hget
    simp [delete_contact, hget]

/-- Witness for C4 after a single Create: Delete(1) returns the stored
record. -/
theorem delete_contact_spec_witness :
    dbGet (runOps initState [Op.createOp (some ivanPayload)]).contacts_db 1 =
      some (mkContact 1 (Value.vStr ("Ivan Ivanov"))
        (Value.vStr ("+7 999 123-45-67")) (Value.vStr (""))) ∧
    (delete_contact (runOps initState [Op.createOp (some ivanPayload)]) 1).1 =
      Except.ok (mkContact 1 (Value.vStr ("Ivan Ivanov"))
        (Value.vStr ("+7 999 123-45-67")) (Value.vStr (""))) :=
  ⟨by rfl,
   ((delete_contact_spec [Op.createOp (some ivanPayload)] 1).1 _ (by rfl)).1⟩

/-- C5: on any reachable state, Get(id) fails with NotFoundError exactly
when no contact with that id is stored, and otherwise returns the stored
contact; in particular Get or Delete on any id never issued by Create
fails with NotFoundError. -/
theorem get_contact_spec (ops : List Op) (i : Nat) :
    (get_contact (runOps initState ops) i = Except.error ApiError.notFoundError ↔
      dbGet (runOps initState ops).contacts_db i = none) ∧
    (∀ c, dbGet (runOps initState ops).contacts_db i = some c →
      get_contact (runOps initState ops) i = Except.ok c) ∧
    (i ∉ createdIds initState ops →
      get_contact (runOps initState ops) i = Except.error ApiError.notFoundError ∧
      (delete_contact (runOps initState ops) i).1 =
        Except.error ApiError.notFoundError) := by
  have hwf := wfState_reachable ops
  have hok : ∀ c, dbGet (runOps initState ops).contacts_db i = some c →
      get_contact (runOps initState ops) i = Except.ok c := by
    intro c hget
    obtain ⟨nm, ph, em, hc⟩ := hwf.2.2 (i, c) (dbGet_some_mem hget)
    have hc2 : c = mkContact i nm ph em := hc
    have hne : c.isEmpty = false := by rw [hc2]; rfl
    simp [get_contact, hget, hne]
  refine ⟨⟨?_, ?_⟩, hok, ?_⟩
  · intro herr
    cases hget : dbGet (runOps initState ops).contacts_db i with
    | none => rfl
    | some c =>
      rw [hok c hget] at herr
      exact absurd herr (by simp)
  · intro hget
    simp [get_contact, hget]
  · intro hnc
    have hget : dbGet (runOps initState ops).contacts_db i = none := by
      cases hget : dbGet (runOps initState ops).contacts_db i with
      | none => rfl
      | some c =>
        have hmem : i ∈ ((runOps initState ops).contacts_db.map Prod.fst) :=
          List.mem_map_of_mem Prod.fst (dbGet_some_mem hget)
        rcases stored_key_createdIds ops initState i hmem with h1 | h1
        · simp [initState] at h1
        · exact absurd h1 hnc
    exact ⟨by simp [get_contact, hget], by simp [delete_contact, hget]⟩

/-- Witness for C5: id 7 was never issued on the empty trace, so Get and
Delete both fail with NotFoundError. -/
theorem get_contact_spec_witness :
    (7 ∉ createdIds initState []) ∧
    get_contact (runOps initState []) 7 = Except.error ApiError.notFoundError ∧
    (delete_contact (runOps initState []) 7).1 = Except.error ApiError.notFoundError :=
  ⟨by decide,
   ((get_contact_spec [] 7).2.2 (by decide)).1,
   ((get_contact_spec [] 7).2.2 (by decide)).2⟩

/-- C6: after any request sequence, List returns exactly the stored
contacts in the insertion order of the underlying mapping, and its count
equals the number of elements of that contacts sequence. -/
theorem list_contacts_spec (ops : List Op) :
    (get_all_contacts (runOps initState ops)).1 =
      (runOps initState ops).contacts_db.map Prod.snd ∧
    (get_all_contacts (runOps initState ops)).2 =
      (get_all_contacts (runOps initState ops)).1.length := by
  refine ⟨rfl, ?_⟩
  simp [get_all_contacts]

/-- C7: a successful Create allocates the current counter value as the id,
increments the counter by one, stores the four-field record id/name/phone/
email under that id, and returns that stored record; a missing email key
is stored as the empty string. -/
theorem create_contact_effects (s : RegistryState) (p : Payload) (nm ph : Value)
    (hn : p.name = some nm) (hp : p.phone = some ph) :
    create_contact s (some p) =
      (Except.ok (mkContact s.contact_counter nm ph (p.email.getD (Value.vStr ("")))),
       { contacts_db := dbInsert s.contacts_db s.contact_counter
           (mkContact s.contact_counter nm ph (p.email.getD (Value.vStr ("")))),
         contact_counter := s.contact_counter + 1 }) ∧
    dbGet (create_contact s (some p)).2.contacts_db s.contact_counter =
      some (mkContact s.contact_counter nm ph (p.email.getD (Value.vStr ("")))) := by
  refine ⟨create_contact_ok hn hp, ?_⟩
  rw [create_contact_ok hn hp]
  exact dbGet_dbInsert_self

/-- Witness for C7 at the fresh state and the scenario's first payload,
whose email key is absent. -/
theorem create_contact_effects_witness :
    ivanPayload.email = none ∧
    create_contact initState (some ivanPayload) =
      (Except.ok (mkContact initState.contact_counter (Value.vStr ("Ivan Ivanov"))
         (Value.vStr ("+7 999 123-45-67")) (ivanPayload.email.getD (Value.vStr ("")))),
       { contacts_db := dbInsert initState.contacts_db initState.contact_counter
           (mkContact initState.contact_counter (Value.vStr ("Ivan Ivanov"))
             (Value.vStr ("+7 999 123-45-67")) (ivanPayload.email.getD (Value.vStr ("")))),
         contact_counter := initState.contact_counter + 1 }) :=
  ⟨rfl, (create_contact_effects initState ivanPayload _ _ rfl rfl).1⟩

/-- C8: the concrete scenario from the fresh registry: creating Ivan
Ivanov with phone +7 999 123-45-67 yields id 1 with empty email; creating
Anna with phone 1 and email a@x.com yields id 2; Delete(1) returns the
Ivan record; List then reports count 1 with only Anna's record, id 2. -/
theorem scenario_spec :
    scenarioStep1.1 = Except.ok (mkContact 1 (Value.vStr ("Ivan Ivanov"))
      (Value.vStr ("+7 999 123-45-67")) (Value.vStr (""))) ∧
    scenarioStep2.1 = Except.ok (mkContact 2 (Value.vStr ("Anna"))
      (Value.vStr ("1")) (Value.vStr ("a@x.com"))) ∧
    scenarioStep3.1 = Except.ok (mkContact 1 (Value.vStr ("Ivan Ivanov"))
      (Value.vStr ("+7 999 123-45-67")) (Value.vStr (""))) ∧
    get_all_contacts scenarioStep3.2 =
      ([mkContact 2 (Value.vStr ("Anna")) (Value.vStr ("1")) (Value.vStr ("a@x.com"))], 1) :=
  ⟨rfl, rfl, rfl, rfl⟩

/-- C9: in every state reachable from the fresh registry, each stored
record's id field equals the key it is stored under, and the record
carries all four keys id, name, phone, email; in particular no stored
record is an empty dict. -/
theorem stored_record_shape (ops : List Op) (k : Nat) (c : ContactDict)
    (hmem : (k, c) ∈ (runOps initState ops).contacts_db) :
    dictGet c ("id") = some (Value.vNat k) ∧
    (dictGet c ("name")).isSome = true ∧
    (dictGet c ("phone")).isSome = true ∧
    (dictGet c ("email")).isSome = true ∧
    c ≠ [] := by
  obtain ⟨nm, ph, em, hc⟩ := (wfState_reachable ops).2.2 (k, c) hmem
  have hc2 : c = mkContact k nm ph em := hc
  subst hc2
  exact ⟨rfl, rfl, rfl, rfl, by simp [mkContact]⟩

/-- Witness for C9 at the one-Create trace and its stored record. -/
theorem stored_record_shape_witness :
    (1, mkContact 1 (Value.vStr ("Ivan Ivanov"))
        (Value.vStr ("+7 999 123-45-67")) (Value.vStr (""))) ∈
      (runOps initState [Op.createOp (some ivanPayload)]).contacts_db ∧
    dictGet (mkContact 1 (Value.vStr ("Ivan Ivanov"))
        (Value.vStr ("+7 999 123-45-67")) (Value.vStr (""))) ("id") =
      some (Value.vNat 1) :=
  ⟨by decide,
   (stored_record_shape [Op.createOp (some ivanPayload)] 1 _ (by decide)).1⟩

/-- C10: health_check always succeeds, reporting the fixed status and
service strings, and a contacts_count equal to the count List reports on
the same state. -/
theorem health_check_spec (s : RegistryState) :
    health_check s = (("healthy"), (get_all_contacts s).2, ("Phone Contacts API v1.0")) :=
  rfl
